import Mathlib

/-!
Shallow embedding of `src/mcl_toolbox/models/hierarchical_models.py`:
the `HierarchicalAgent` (termination agent) and the `HierarchicalLearner`
simulation controller, together with the decision-rule evaluator
`compute_stop_prob`.

Conventions of the embedding:
* Python floats are modelled as real numbers (`ℝ`).
* The mutable `HierarchicalAgent` object is modelled as an immutable record;
  every mutating method returns the updated record.
* The parameter dictionary `self.params` is modelled as the record
  `DecisionParams`; the quantile branch of `compute_stop_prob`, which writes
  the clamped `theta` back into the dictionary, returns the updated record.
* The external environment and the external actor (execution agent) are
  collaborators outside the spec's scope; they are modelled as records of
  abstract state-transition functions over caller-chosen state types.
* Randomness (`np.random.choice` in `get_action`, `np.random.normal` in the
  `confidence_bound` branch) is modelled by oracle inputs: `get_action`
  receives the standard-normal draw and the uniform choice draw explicitly,
  and the simulation loop reads them from an oracle stream indexed by a
  running counter.
-/

/-- The decision-rule names dispatched on by `compute_stop_prob`
(the string `self.decision_rule` in the source). -/
inductive DecisionRule : Type
  | threshold
  | best_payoff
  | average_payoff
  | adaptive_satisficing
  | feature
  | best_path_difference
  | vpi
  | voi1
  | maximum_improvement
  | expected_improvement
  | quantile
  | noisy_memory_best_payoff
  | confidence_bound
deriving DecidableEq

/-- The parameter dictionary `self.params`: one field per key read by the
source (`tau`, `theta`, `a`, `b`, `alpha`, `beta`, `threshold_mean`,
`threshold_var`). -/
structure DecisionParams : Type where
  tau : ℝ
  theta : ℝ
  a : ℝ
  b : ℝ
  alpha : ℝ
  beta : ℝ
  threshold_mean : ℝ
  threshold_var : ℝ

/-- The `HierarchicalAgent` object state.  `termination_features` and
`featureWeights` model the attributes `self.termination_features` and the
weight list `[self.decision_params[f_i] for i ...]` read by the `feature`
branch; the source reads them but never initialises them in this file, so
they are carried as plain fields. -/
structure HierarchicalAgent : Type where
  tau : ℝ
  payoffs : List ℝ
  params : DecisionParams
  decision_rule : DecisionRule
  termination_features : List ℕ
  featureWeights : List ℝ
  max_payoff : ℝ
  avg_payoff : ℝ
  history : List ℝ
  action_log_probs : List ℝ

/-- `HierarchicalAgent.__init__`: `tau = exp(params[tau])`, empty statistics. -/
noncomputable def HierarchicalAgent.construct (params : DecisionParams)
    (rule : DecisionRule) (tf : List ℕ) (fw : List ℝ) : HierarchicalAgent :=
  { tau := Real.exp params.tau
    payoffs := []
    params := params
    decision_rule := rule
    termination_features := tf
    featureWeights := fw
    max_payoff := 0
    avg_payoff := 0
    history := []
    action_log_probs := [] }

/-- Modelled from the spec: `rows_mean` from `mcl_toolbox.utils.learning_utils`
is not under `src/`; the spec states that `avg_payoff` is the arithmetic mean
of `payoffs`. -/
noncomputable def rows_mean (xs : List ℝ) : ℝ := xs.sum / (xs.length : ℝ)

/-- Modelled from the spec: `temp_sigmoid` from
`mcl_toolbox.utils.learning_utils` is not under `src/`; the spec defines the
Sigmoid Scorer as `1 / (1 + exp (-score / tau))`.  The overflow guard the
spec mentions does not change the real-valued semantics. -/
noncomputable def temp_sigmoid (score tau : ℝ) : ℝ :=
  1 / (1 + Real.exp (-(score / tau)))

/-- Modelled from the spec: `hierarchical_params.precision_epsilon` from
`mcl_toolbox.global_vars` is not under `src/`; it is the small fixed positive
floor constant used to clamp probabilities away from zero.  Its exact value
is not given by the spec and no claim depends on it. -/
noncomputable def precision_epsilon : ℝ := 1 / 100000

/-- Modelled from the spec: the Gamma forgetting density
`scipy.stats.gamma.pdf(x, a, scale)` (external library),
`(x/scale)^(a-1) exp(-(x/scale)) / (Γ(a) scale)`, zero for negative `x`. -/
noncomputable def gamma_pdf (x a scale : ℝ) : ℝ :=
  if x < 0 then 0
  else Real.rpow (x / scale) (a - 1) * Real.exp (-(x / scale)) / (Real.Gamma a * scale)

/-- Insertion step for the sort underlying `np_quantile`. -/
noncomputable def insortR (x : ℝ) : List ℝ → List ℝ
  | [] => [x]
  | y :: ys => if x ≤ y then x :: y :: ys else y :: insortR x ys

/-- Insertion sort on reals, used by `np_quantile`. -/
noncomputable def sortR (xs : List ℝ) : List ℝ := xs.foldr insortR []

/-- Modelled from the spec: `np.quantile` (external library) with its default
linear interpolation between order statistics of the sorted data.  The source
only calls it with the quantile already clamped into `[0,1]`. -/
noncomputable def np_quantile (xs : List ℝ) (q : ℝ) : ℝ :=
  match sortR xs with
  | [] => 0
  | y :: ys =>
      let s := y :: ys
      let n := s.length
      let h := q * ((n : ℝ) - 1)
      let lo := min (⌊h⌋).toNat (n - 1)
      let hi := min (lo + 1) (n - 1)
      let a := s.getD lo 0
      let b := s.getD hi 0
      a + (h - (lo : ℝ)) * (b - a)

/-- The environment collaborator (external, §6 of the spec): the queries the
core makes of it, over a caller-chosen environment-state type `σ`.
`stepTerm s` is `env.step(0)` restricted to the components the source uses in
the stop branch (successor state and reward); `termFeatureValue` models the
per-node normalized termination-feature computation used by the `feature`
rule. -/
structure Env (σ : Type) : Type where
  numTrials : ℕ
  numActions : ℕ
  reset : σ → σ
  availableActions : σ → List ℕ
  maxExpectedReturn : σ → ℝ
  maxDistValue : σ → ℝ
  minDistValue : σ → ℝ
  presentTrialNum : σ → ℕ
  stepTerm : σ → σ × ℝ
  nextTrial : σ → σ
  termFeatureValue : σ → ℕ → ℝ

/-- `HierarchicalAgent.compute_stop_prob`.  Translated branch by branch from
the source.  The result is the pair of the stop probability and the parameter
dictionary after the call (the quantile branch clamps `theta` in place; every
other branch leaves the dictionary unchanged).  `normalDraw` is the oracle
standard-normal draw consumed by the `confidence_bound` branch. -/
noncomputable def HierarchicalAgent.compute_stop_prob {σ : Type}
    (ag : HierarchicalAgent) (env : Env σ) (s : σ)
    (max_expected_return max_payoff avg_payoff vpi voi max_improvement
      expected_improvement : ℝ)
    (path_history : List ℝ) (normalDraw : ℝ) : ℝ × DecisionParams :=
  let dp := ag.params
  let tau := ag.tau
  if (env.availableActions s).length = 1 then (1, dp)
  else
    match ag.decision_rule with
    | .threshold =>
        let max_return := env.maxDistValue s
        let min_return := env.minDistValue s
        let max_min_diff := max_return - min_return
        let normalized_return := (max_expected_return - min_return) / max_min_diff
        (temp_sigmoid (normalized_return - dp.theta) tau, dp)
    | .best_payoff =>
        (temp_sigmoid (max_expected_return - Real.exp dp.theta * max_payoff) tau, dp)
    | .average_payoff =>
        (temp_sigmoid (max_expected_return - Real.exp dp.theta * avg_payoff) tau, dp)
    | .adaptive_satisficing =>
        let num_clicks : ℝ :=
          (env.numActions : ℝ) - ((env.availableActions s).length : ℝ)
        (temp_sigmoid (max_expected_return - Real.exp dp.a + Real.exp dp.b * num_clicks)
          tau, dp)
    | .feature =>
        let termination_feature_values :=
          ag.termination_features.map (fun i => env.termFeatureValue s i)
        let dot_product :=
          (List.zipWith (fun x w => x * w) termination_feature_values
            ag.featureWeights).sum
        (temp_sigmoid dot_product tau, dp)
    | .best_path_difference =>
        (temp_sigmoid (max_payoff - max_expected_return - dp.theta) tau, dp)
    | .vpi =>
        (temp_sigmoid (vpi - max_expected_return - dp.theta) tau, dp)
    | .voi1 =>
        (temp_sigmoid (voi - max_expected_return - dp.theta) tau, dp)
    | .maximum_improvement =>
        (temp_sigmoid (max_improvement - dp.theta) tau, dp)
    | .expected_improvement =>
        (temp_sigmoid (expected_improvement - dp.theta) tau, dp)
    | .quantile =>
        let dp1 := if dp.theta > 1 then { dp with theta := 1 } else dp
        let dp2 := if dp1.theta < 0 then { dp1 with theta := 0 } else dp1
        (temp_sigmoid (np_quantile path_history dp2.theta) tau, dp2)
    | .noisy_memory_best_payoff =>
        let alpha := dp.alpha
        let beta := dp.beta
        let trial_num := env.presentTrialNum s
        let contrib := fun (reward : ℝ) =>
          let p_forget_higher :=
            (path_history.enum.map (fun p =>
              if p.2 > reward then
                gamma_pdf ((trial_num : ℝ) - (p.1 : ℝ)) alpha beta
              else 1)).prod
          let p_forget_reward :=
            (path_history.enum.map (fun p =>
              if p.2 = reward then
                gamma_pdf ((trial_num : ℝ) - (p.1 : ℝ)) alpha beta
              else 1)).prod
          let p_remember_reward := 1 - p_forget_reward
          let p_stop_conditional :=
            temp_sigmoid (max_expected_return - Real.exp dp.theta * reward) tau
          p_remember_reward * p_forget_higher * p_stop_conditional
        ((path_history.dedup.map contrib).sum, dp)
    | .confidence_bound =>
        let trial_num := env.presentTrialNum s
        let threshold_mean :=
          if trial_num = 0 then dp.threshold_mean else ag.avg_payoff
        let sample :=
          threshold_mean +
            (dp.threshold_var / Real.sqrt ((trial_num : ℝ) + 1)) * normalDraw
        (temp_sigmoid (max_expected_return - sample) tau, dp)

/-- `HierarchicalAgent.update_payoffs`: append the trial's total reward,
recompute the mean, and bump the running maximum only when the new reward
strictly exceeds it. -/
noncomputable def HierarchicalAgent.update_payoffs (ag : HierarchicalAgent)
    (total_reward : ℝ) : HierarchicalAgent :=
  let payoffs := ag.payoffs ++ [total_reward]
  { ag with
    payoffs := payoffs
    avg_payoff := rows_mean payoffs
    max_payoff := if total_reward > ag.max_payoff then total_reward else ag.max_payoff }

/-- `HierarchicalAgent.update_history`: append the step's max expected return. -/
noncomputable def HierarchicalAgent.update_history (ag : HierarchicalAgent)
    (max_expected_return : ℝ) : HierarchicalAgent :=
  { ag with history := ag.history ++ [max_expected_return] }

/-- `HierarchicalAgent.init_model_params`: reset `payoffs`, `max_payoff`,
`avg_payoff` and `history`.  Note that the source does not touch
`action_log_probs` here. -/
noncomputable def HierarchicalAgent.init_model_params (ag : HierarchicalAgent) :
    HierarchicalAgent :=
  { ag with payoffs := [], max_payoff := 0, avg_payoff := 0, history := [] }

/-- `HierarchicalAgent.get_action`: append the current max expected return to
`history`, compute the stop probability feeding `self.history` as
`path_history` (all other feature arguments keep their Python defaults `0`),
install the possibly-clamped parameter dictionary, then sample the
termination choice (`0` = stop, drawn with probability `p_stop`).
`choiceDraw` is the oracle uniform draw behind `np.random.choice`. -/
noncomputable def HierarchicalAgent.get_action {σ : Type} (ag : HierarchicalAgent)
    (env : Env σ) (s : σ) (normalDraw choiceDraw : ℝ) :
    ℕ × ℝ × HierarchicalAgent :=
  let max_expected_return := env.maxExpectedReturn s
  let ag1 := ag.update_history max_expected_return
  let r := ag1.compute_stop_prob env s max_expected_return 0 0 0 0 0 0
    ag1.history normalDraw
  let ag2 := { ag1 with params := r.2 }
  (if choiceDraw < r.1 then 0 else 1, r.1, ag2)

/-- The result of one `act_and_learn(env)` call on the external actor
(execution agent): updated actor state, updated environment state, the chosen
action, its reward, the episode-done flag, and the taken path. -/
structure ActStep (α σ : Type) : Type where
  actor : α
  envs : σ
  action : ℕ
  reward : ℝ
  done : Bool
  path : List ℕ

/-- The external actor (execution agent) collaborator, §6 of the spec: the
operations the controller invokes on it, over a caller-chosen actor-state
type `α`.  `trial_reset` models the per-trial attribute clears
(`update_rewards`, `update_features`, `term_rewards`), `set_num_actions` the
`num_actions` assignment. -/
structure ActorAgent (α σ : Type) : Type where
  init_model_params : α → α
  trial_reset : α → α
  set_num_actions : α → ℕ → α
  get_current_weights : α → List ℝ
  act_and_learn_end : α → σ → α × σ
  act_and_learn : α → σ → ActStep α σ
  store_action_likelihood : α → σ → ℕ → α
  take_action_and_learn : α → σ → ℕ → ℝ → Option ℕ → List ℕ → α × σ
  action_log_probs : α → List ℝ

/-- The state produced by one trial's inner loop: updated decision agent,
actor, environment state, oracle counter, and the trial's recorded action and
reward sequences. -/
structure TrialLoopOut (α σ : Type) : Type where
  dec : HierarchicalAgent
  actor : α
  s : σ
  k : ℕ
  actions : List ℕ
  rewards : List ℝ

/-- The participant record consumed in likelihood mode
(`participant.all_trials_data`): observed actions, rewards and taken paths,
one list per trial. -/
structure Participant : Type where
  actions : List (List ℕ)
  rewards : List (List ℝ)
  taken_paths : List (List ℕ)

/-- The likelihood-mode inner loop of `simulate` (the `for i in
range(len(trial_actions))` body), recursing over the observed action list
with `i` the running index into `trial_rewards` and `rest.head?` the
look-ahead `next_action`. -/
noncomputable def lik_steps {α σ : Type} (A : ActorAgent α σ) (env : Env σ)
    (oracle : ℕ → ℝ × ℝ) (no_term : Bool) (trial_path : List ℕ)
    (trial_rewards : List ℝ) :
    List ℕ → ℕ → HierarchicalAgent → α → σ → ℕ → List ℕ → List ℝ →
      TrialLoopOut α σ
  | [], _, dec, actor, s, k, actions, rewards =>
      ⟨dec, actor, s, k, actions, rewards⟩
  | action :: rest, i, dec, actor, s, k, actions, rewards =>
      let reward := trial_rewards.getD i 0
      let ga := dec.get_action env s (oracle k).1 (oracle k).2
      let p_stop := ga.2.1
      let dec1 := ga.2.2
      let action_prob :=
        if action ≠ 0 then
          (if 1 - p_stop = 0 then precision_epsilon else 1 - p_stop)
        else
          (if p_stop = 0 then precision_epsilon else p_stop)
      let dec2 :=
        { dec1 with
          action_log_probs := dec1.action_log_probs ++ [Real.log action_prob] }
      let rewards1 := rewards ++ [reward]
      let actions1 := actions ++ [action]
      if no_term = false ∨ action ≠ 0 then
        let actor1 := A.store_action_likelihood actor s action
        let pr := A.take_action_and_learn actor1 s action reward rest.head? trial_path
        lik_steps A env oracle no_term trial_path trial_rewards rest (i + 1)
          dec2 pr.1 pr.2 (k + 1) actions1 rewards1
      else
        lik_steps A env oracle no_term trial_path trial_rewards rest (i + 1)
          dec2 actor s (k + 1) actions1 rewards1

/-- The generative-mode inner loop of `simulate` (the `while True` body).
The Python loop has no bound; the recursion is given a fuel argument and
returns `none` if the fuel runs out before the trial ends.  In the stop
branch the source appends the literal terminal action `0` and then, after
the reward, appends `continue_planning` (also `0`) a second time. -/
noncomputable def gen_loop {α σ : Type} (A : ActorAgent α σ) (env : Env σ)
    (oracle : ℕ → ℝ × ℝ) :
    ℕ → HierarchicalAgent → α → σ → ℕ → List ℕ → List ℝ →
      Option (TrialLoopOut α σ)
  | 0, _, _, _, _, _, _ => none
  | fuel + 1, dec, actor, s, k, actions, rewards =>
      let ga := dec.get_action env s (oracle k).1 (oracle k).2
      let continue_planning := ga.1
      let dec1 := ga.2.2
      if continue_planning = 0 then
        let st := env.stepTerm s
        let ae := A.act_and_learn_end actor st.1
        some ⟨dec1, ae.1, ae.2, k + 1, actions ++ [0, continue_planning],
          rewards ++ [st.2]⟩
      else
        let astep := A.act_and_learn actor s
        let rewards1 := rewards ++ [astep.reward]
        let actions1 := actions ++ [astep.action]
        if astep.done then
          some ⟨dec1, astep.actor, astep.envs, k + 1, actions1, rewards1⟩
        else
          gen_loop A env oracle fuel dec1 astep.actor astep.envs (k + 1)
            actions1 rewards1

/-- The controller state threaded through the trial loop of `simulate`:
current decision agent, actor, environment state, oracle counter, and the
accumulating `w`, `a`, `r` entries of the trial record. -/
structure SimState (α σ : Type) : Type where
  dec : HierarchicalAgent
  actor : α
  s : σ
  k : ℕ
  w : List (List ℝ)
  a : List (List ℕ)
  r : List ℝ

/-- The `for trial_num in range(num_trials)` loop of `simulate`, recursing
over the list of trial indices.  Each iteration resets the actor's per-trial
attributes, records the current weights, runs the mode-specific inner loop,
advances the environment, and appends the trial's action list and summed
reward.  There is no call to `update_payoffs` anywhere in the loop. -/
noncomputable def run_trials {α σ : Type} (A : ActorAgent α σ) (env : Env σ)
    (oracle : ℕ → ℝ × ℝ) (no_term : Bool) (compute_likelihood : Bool)
    (P : Participant) (fuel : ℕ) :
    List ℕ → SimState α σ → Option (SimState α σ)
  | [], st => some st
  | t :: ts, st =>
      let actor0 :=
        A.set_num_actions (A.trial_reset st.actor) (env.availableActions st.s).length
      let w1 := st.w ++ [A.get_current_weights actor0]
      let out? : Option (TrialLoopOut α σ) :=
        if compute_likelihood then
          some (lik_steps A env oracle no_term (P.taken_paths.getD t [])
            (P.rewards.getD t []) (P.actions.getD t []) 0 st.dec actor0 st.s
            st.k [] [])
        else
          gen_loop A env oracle fuel st.dec actor0 st.s st.k [] []
      match out? with
      | none => none
      | some out =>
          run_trials A env oracle no_term compute_likelihood P fuel ts
            ⟨out.dec, out.actor, env.nextTrial out.s, out.k, w1,
              st.a ++ [out.actions], st.r ++ [out.rewards.sum]⟩

/-- The per-run trial record returned by `simulate` (keys `w`, `a`, `r`,
`loss`).  A key the Python `defaultdict` never touched is modelled as the
empty list. -/
structure TrialsData : Type where
  w : List (List ℝ)
  a : List (List ℕ)
  r : List ℝ
  loss : Option ℝ

/-- The `HierarchicalLearner`: the decision (termination) agent together
with the external actor implementation and its state, and the `no_term`
attribute. -/
structure HierarchicalLearner (α σ : Type) : Type where
  decision_agent : HierarchicalAgent
  actor_state : α
  actor : ActorAgent α σ
  no_term : Bool

/-- `HierarchicalLearner.simulate`: reset both agents and the environment,
run all trials, then set `loss` to the negated sum of both agents'
accumulated log-probabilities when both lists are non-empty (Python list
truthiness) and to `None` otherwise.  Returns the trial record together with
the final decision agent, actor state and environment state; `none` only
when the generative inner loop exhausted its fuel. -/
noncomputable def HierarchicalLearner.simulate {α σ : Type}
    (L : HierarchicalLearner α σ) (env : Env σ) (compute_likelihood : Bool)
    (P : Participant) (oracle : ℕ → ℝ × ℝ) (fuel : ℕ) (s : σ) :
    Option (TrialsData × HierarchicalAgent × α × σ) :=
  let actor0 := L.actor.init_model_params L.actor_state
  let dec0 := L.decision_agent.init_model_params
  let s0 := env.reset s
  let actor1 := L.actor.set_num_actions actor0 (env.availableActions s0).length
  match run_trials L.actor env oracle L.no_term compute_likelihood P fuel
      (List.range env.numTrials) ⟨dec0, actor1, s0, 0, [], [], []⟩ with
  | none => none
  | some st =>
      let dAlp := st.dec.action_log_probs
      let aAlp := L.actor.action_log_probs st.actor
      let loss : Option ℝ :=
        if dAlp.isEmpty || aAlp.isEmpty then none
        else some (-(dAlp.sum + aAlp.sum))
      some (⟨st.w, st.a, st.r, loss⟩, st.dec, st.actor, st.s)

/-- A parameter dictionary with every entry zero, used by the concrete
instances below. -/
noncomputable def baseParams : DecisionParams :=
  { tau := 0, theta := 0, a := 0, b := 0, alpha := 0, beta := 0,
    threshold_mean := 0, threshold_var := 0 }

/-- A freshly constructed agent with temperature `1` (that is,
`exp(params.tau)` for `params.tau = 0`) and the `threshold` rule. -/
noncomputable def baseAgent : HierarchicalAgent :=
  { tau := 1, payoffs := [], params := baseParams, decision_rule := .threshold,
    termination_features := [], featureWeights := [], max_payoff := 0,
    avg_payoff := 0, history := [], action_log_probs := [] }

/-- A trivial external actor over unit state: every operation is the
identity, `act_and_learn` immediately reports the episode done. -/
noncomputable def unitActor : ActorAgent Unit Unit :=
  { init_model_params := fun a => a
    trial_reset := fun a => a
    set_num_actions := fun a _ => a
    get_current_weights := fun _ => []
    act_and_learn_end := fun a s => (a, s)
    act_and_learn := fun a s => ⟨a, s, 1, 0, true, []⟩
    store_action_likelihood := fun a _ _ => a
    take_action_and_learn := fun a s _ _ _ _ => (a, s)
    action_log_probs := fun _ => [] }

/-- A concrete environment with no trials at all. -/
noncomputable def env0 : Env Unit :=
  { numTrials := 0, numActions := 1, reset := fun s => s,
    availableActions := fun _ => [0], maxExpectedReturn := fun _ => 0,
    maxDistValue := fun _ => 1, minDistValue := fun _ => 0,
    presentTrialNum := fun _ => 0, stepTerm := fun _ => ((), 0),
    nextTrial := fun s => s, termFeatureValue := fun _ _ => 0 }

/-- A concrete one-trial environment whose only available action is the
terminal one, so `compute_stop_prob` always takes the forced-stop shortcut. -/
noncomputable def env1 : Env Unit :=
  { numTrials := 1, numActions := 1, reset := fun s => s,
    availableActions := fun _ => [0], maxExpectedReturn := fun _ => 0,
    maxDistValue := fun _ => 1, minDistValue := fun _ => 0,
    presentTrialNum := fun _ => 0, stepTerm := fun _ => ((), 0),
    nextTrial := fun s => s, termFeatureValue := fun _ _ => 0 }

/-- A concrete environment with two available actions (no forced stop),
max expected return `10`, and current trial index `0`. -/
noncomputable def env2 : Env Unit :=
  { numTrials := 1, numActions := 2, reset := fun s => s,
    availableActions := fun _ => [0, 1], maxExpectedReturn := fun _ => 10,
    maxDistValue := fun _ => 10, minDistValue := fun _ => 0,
    presentTrialNum := fun _ => 0, stepTerm := fun _ => ((), 0),
    nextTrial := fun s => s, termFeatureValue := fun _ _ => 0 }

/-- The learner used by the concrete generative runs: fresh base agent,
trivial actor, `no_term = false`. -/
noncomputable def Lgen : HierarchicalLearner Unit Unit :=
  { decision_agent := baseAgent, actor_state := (), actor := unitActor,
    no_term := false }

/-- An empty participant record (generative mode never reads it). -/
noncomputable def P0 : Participant := ⟨[], [], []⟩

/-- The constant randomness oracle: every standard-normal draw and every
uniform choice draw is `0`. -/
noncomputable def or0 : ℕ → ℝ × ℝ := fun _ => (0, 0)

/-- An agent running the `best_payoff` rule whose recorded running maximum
payoff is `5`. -/
noncomputable def agC2 : HierarchicalAgent :=
  { baseAgent with decision_rule := .best_payoff, max_payoff := 5 }

/-- An agent running the `quantile` rule with the out-of-range `theta = 3/2`. -/
noncomputable def agQ : HierarchicalAgent :=
  { baseAgent with
    decision_rule := DecisionRule.quantile
    params := { baseParams with theta := 3 / 2 } }

/-- An agent running the `quantile` rule with the out-of-range
`theta = -1/2`. -/
noncomputable def agQlow : HierarchicalAgent :=
  { baseAgent with
    decision_rule := DecisionRule.quantile
    params := { baseParams with theta := -(1 / 2) } }

/-- An agent running the `noisy_memory_best_payoff` rule with shape
`alpha = 1` and scale `beta = 1/2`. -/
noncomputable def agNoisy : HierarchicalAgent :=
  { baseAgent with
    decision_rule := DecisionRule.noisy_memory_best_payoff
    params := { baseParams with alpha := 1, beta := 1 / 2 } }

/-- An agent holding one accumulated action log-probability. -/
noncomputable def agC9 : HierarchicalAgent :=
  { baseAgent with action_log_probs := [1] }

theorem temp_sigmoid_pos (x t : ℝ) : 0 < temp_sigmoid x t := by
  unfold temp_sigmoid
  positivity

theorem temp_sigmoid_lt_one (x t : ℝ) : temp_sigmoid x t < 1 := by
  unfold temp_sigmoid
  rw [div_lt_one (by positivity)]
  have h := Real.exp_pos (-(x / t))
  linarith

theorem temp_sigmoid_lt_of_lt {x y t : ℝ} (ht : 0 < t) (h : x < y) :
    temp_sigmoid x t < temp_sigmoid y t := by
  unfold temp_sigmoid
  have hdiv : x / t < y / t := div_lt_div_of_pos_right h ht
  have hxy : Real.exp (-(y / t)) < Real.exp (-(x / t)) := by
    apply Real.exp_lt_exp.mpr
    linarith
  have hp : (0 : ℝ) < 1 + Real.exp (-(y / t)) := by positivity
  apply one_div_lt_one_div_of_lt hp
  linarith

theorem update_payoffs_foldl (rs : List ℝ) : ∀ ag : HierarchicalAgent,
    (rs.foldl HierarchicalAgent.update_payoffs ag).payoffs = ag.payoffs ++ rs ∧
    (rs.foldl HierarchicalAgent.update_payoffs ag).max_payoff =
      rs.foldl max ag.max_payoff ∧
    (rs.foldl HierarchicalAgent.update_payoffs ag).avg_payoff =
      (if rs = [] then ag.avg_payoff else rows_mean (ag.payoffs ++ rs)) := by
  induction rs with
  | nil => intro ag; simp
  | cons r rest ih =>
      intro ag
      have h := ih (ag.update_payoffs r)
      simp only [List.foldl_cons]
      have hmax : (ag.update_payoffs r).max_payoff = max ag.max_payoff r := by
        simp only [HierarchicalAgent.update_payoffs]
        rcases le_or_lt r ag.max_payoff with hle | hlt
        · rw [if_neg (not_lt.mpr hle), max_eq_left hle]
        · rw [if_pos hlt, max_eq_right hlt.le]
      refine ⟨?_, ?_, ?_⟩
      · rw [h.1]
        simp [HierarchicalAgent.update_payoffs]
      · rw [h.2.1, hmax]
      · rw [h.2.2]
        by_cases hrest : rest = []
        · subst hrest
          simp [HierarchicalAgent.update_payoffs]
        · rw [if_neg hrest, if_neg (by simp)]
          simp only [HierarchicalAgent.update_payoffs]
          rw [List.append_assoc]
          simp

/-- Claim C3 (amended): after any sequence of `update_payoffs` calls on a
freshly reset agent, `payoffs` is exactly the recorded sequence,
`avg_payoff` is its arithmetic mean (`0` when empty), but `max_payoff` is
the maximum of the recorded rewards *and of the initial value `0`*: the
running maximum is only bumped on a strict increase, so for all-negative
payoff sequences it stays `0` instead of `max(payoffs)`. -/
theorem C3_running_stats (ag : HierarchicalAgent) (rs : List ℝ) :
    (rs.foldl HierarchicalAgent.update_payoffs ag.init_model_params).payoffs = rs ∧
    (rs.foldl HierarchicalAgent.update_payoffs ag.init_model_params).max_payoff =
      rs.foldl max 0 ∧
    (rs.foldl HierarchicalAgent.update_payoffs ag.init_model_params).avg_payoff =
      (if rs = [] then 0 else rs.sum / (rs.length : ℝ)) := by
  have h := update_payoffs_foldl rs ag.init_model_params
  simp only [HierarchicalAgent.init_model_params] at h
  simpa [rows_mean] using h

/-- Claim C3 (counterexample): recording the single all-negative trial payoff
`-1` on a fresh agent leaves `max_payoff = 0`, while the maximum of the
`payoffs` sequence `[-1]` is `-1`. -/
theorem C3_counterexample :
    (baseAgent.update_payoffs (-1)).payoffs = [-1] ∧
    (baseAgent.update_payoffs (-1)).max_payoff = 0 ∧ (0 : ℝ) ≠ -1 := by
  refine ⟨rfl, ?_, by norm_num⟩
  simp only [HierarchicalAgent.update_payoffs, baseAgent]
  norm_num

/-- Claim C7: whenever the environment reports exactly one available action,
`compute_stop_prob` returns stop probability `1.0` and an unchanged
parameter dictionary, for every decision rule and parameter set, without
evaluating the selected rule. -/
theorem C7_forced_stop {σ : Type} (env : Env σ) (s : σ) (ag : HierarchicalAgent)
    (mer mp ap vpi voi mi ei : ℝ) (ph : List ℝ) (nd : ℝ)
    (h : (env.availableActions s).length = 1) :
    ag.compute_stop_prob env s mer mp ap vpi voi mi ei ph nd = (1, ag.params) := by
  unfold HierarchicalAgent.compute_stop_prob
  rw [if_pos h]

/-- Witness for C7 at the concrete single-action environment `env1`. -/
theorem C7_forced_stop_witness :
    (env1.availableActions ()).length = 1 ∧
    baseAgent.compute_stop_prob env1 () 0 0 0 0 0 0 0 [0] 0 = (1, baseAgent.params) :=
  ⟨rfl, C7_forced_stop env1 () baseAgent 0 0 0 0 0 0 0 [0] 0 rfl⟩

/-- Claim C9 (amended): `init_model_params` resets `payoffs`, `max_payoff`,
`avg_payoff` and `history` to their empty/zero initial values but leaves
`action_log_probs` (and the parameters) untouched, so log-probabilities
accumulated in an earlier run persist into the next run. -/
theorem C9_reset_fields (ag : HierarchicalAgent) :
    (ag.init_model_params).payoffs = [] ∧
    (ag.init_model_params).max_payoff = 0 ∧
    (ag.init_model_params).avg_payoff = 0 ∧
    (ag.init_model_params).history = [] ∧
    (ag.init_model_params).action_log_probs = ag.action_log_probs ∧
    (ag.init_model_params).params = ag.params ∧
    (ag.init_model_params).tau = ag.tau ∧
    (ag.init_model_params).decision_rule = ag.decision_rule :=
  ⟨rfl, rfl, rfl, rfl, rfl, rfl, rfl, rfl⟩

/-- Claim C9 (counterexample): an agent holding one accumulated action
log-probability keeps it across `init_model_params`, so the reset does not
restore the freshly-constructed state (whose `action_log_probs` is empty). -/
theorem C9_counterexample :
    (agC9.init_model_params).action_log_probs = [1] ∧ ([(1 : ℝ)] ≠ []) :=
  ⟨rfl, by simp⟩

/-- Claim C10: `get_action` appends the current max expected return to
`history` before computing the stop probability, and feeds exactly that
updated history as `path_history`; the list passed is therefore never
empty, so the quantile rule's quantile is always taken over a non-empty
sequence. -/
theorem C10_nonempty_path_history {σ : Type} (env : Env σ) (s : σ)
    (ag : HierarchicalAgent) (nd cd : ℝ) :
    (ag.update_history (env.maxExpectedReturn s)).history ≠ [] ∧
    (ag.get_action env s nd cd).2.1 =
      ((ag.update_history (env.maxExpectedReturn s)).compute_stop_prob env s
        (env.maxExpectedReturn s) 0 0 0 0 0 0
        (ag.update_history (env.maxExpectedReturn s)).history nd).1 :=
  ⟨by simp [HierarchicalAgent.update_history], rfl⟩

/-- Claim C8 (amended): for every decision rule other than `quantile`,
`compute_stop_prob` returns the parameter dictionary unchanged; the
`quantile` rule, however, writes the clamp of `theta` into `[0,1]` back into
the stored parameters whenever the rule is actually evaluated: an
out-of-range `theta > 1` is persistently overwritten with `1`, and an
out-of-range `theta < 0` is persistently overwritten with `0`. -/
theorem C8_params_frame {σ : Type} (env : Env σ) (s : σ) (ag : HierarchicalAgent)
    (mer mp ap vpi voi mi ei : ℝ) (ph : List ℝ) (nd : ℝ) :
    (ag.decision_rule ≠ DecisionRule.quantile →
      (ag.compute_stop_prob env s mer mp ap vpi voi mi ei ph nd).2 = ag.params) ∧
    (ag.decision_rule = DecisionRule.quantile →
      (env.availableActions s).length ≠ 1 → 1 < ag.params.theta →
      (ag.compute_stop_prob env s mer mp ap vpi voi mi ei ph nd).2.theta = 1) ∧
    (ag.decision_rule = DecisionRule.quantile →
      (env.availableActions s).length ≠ 1 → ag.params.theta < 0 →
      (ag.compute_stop_prob env s mer mp ap vpi voi mi ei ph nd).2.theta = 0) := by
  refine ⟨?_, ?_, ?_⟩
  · intro hne
    by_cases h1 : (env.availableActions s).length = 1
    · simp [HierarchicalAgent.compute_stop_prob, h1]
    · cases hr : ag.decision_rule <;>
        simp [HierarchicalAgent.compute_stop_prob, h1, hr]
      exact absurd hr hne
  · intro hq hlen hθ
    simp only [HierarchicalAgent.compute_stop_prob, hq, if_neg hlen]
    rw [if_pos (show ag.params.theta > 1 from hθ)]
    norm_num
  · intro hq hlen hθ
    simp only [HierarchicalAgent.compute_stop_prob, hq, if_neg hlen]
    rw [if_neg (show ¬ ag.params.theta > 1 by linarith)]
    rw [if_pos hθ]

/-- Witness for C8: the frame part at a concrete non-quantile agent, and the
lower-clamp part at a concrete quantile agent with stored `theta = -1/2`. -/
theorem C8_params_frame_witness :
    (baseAgent.decision_rule ≠ DecisionRule.quantile ∧
      (baseAgent.compute_stop_prob env2 () 0 0 0 0 0 0 0 [0] 0).2 = baseAgent.params) ∧
    (agQlow.decision_rule = DecisionRule.quantile ∧
      (env2.availableActions ()).length ≠ 1 ∧ agQlow.params.theta < 0 ∧
      (agQlow.compute_stop_prob env2 () 0 0 0 0 0 0 0 [0] 0).2.theta = 0) :=
  ⟨⟨by decide, (C8_params_frame env2 () baseAgent 0 0 0 0 0 0 0 [0] 0).1 (by decide)⟩,
    ⟨rfl, by decide, by norm_num [agQlow, baseParams],
      (C8_params_frame env2 () agQlow 0 0 0 0 0 0 0 [0] 0).2.2 rfl (by decide)
        (by norm_num [agQlow, baseParams])⟩⟩

/-- Claim C8 (counterexample): evaluating the quantile rule with stored
`theta = 3/2` (outside `[0,1]`) returns a parameter dictionary whose `theta`
has been overwritten with `1`, so the stored parameter values are modified. -/
theorem C8_counterexample :
    agQ.params.theta = 3 / 2 ∧
    (agQ.compute_stop_prob env2 () 0 0 0 0 0 0 0 [0] 0).2.theta = 1 ∧
    (3 / 2 : ℝ) ≠ 1 := by
  refine ⟨rfl, ?_, by norm_num⟩
  simp only [HierarchicalAgent.compute_stop_prob, agQ, baseAgent, baseParams, env2]
  norm_num

/-- Claim C5 (amended): for every decision rule other than
`noisy_memory_best_payoff`, and for every parameter set and all real-valued
feature inputs, the stop probability returned by `compute_stop_prob` lies in
`[0,1]` (each such rule is either the forced-stop constant `1` or a sigmoid
value).  The `noisy_memory_best_payoff` rule's weighted sum can leave
`[0,1]`, because the Gamma density factors are not probabilities (see the
counterexample). -/
theorem C5_stop_prob_range {σ : Type} (env : Env σ) (s : σ) (ag : HierarchicalAgent)
    (mer mp ap vpi voi mi ei : ℝ) (ph : List ℝ) (nd : ℝ)
    (h : ag.decision_rule ≠ DecisionRule.noisy_memory_best_payoff) :
    0 ≤ (ag.compute_stop_prob env s mer mp ap vpi voi mi ei ph nd).1 ∧
      (ag.compute_stop_prob env s mer mp ap vpi voi mi ei ph nd).1 ≤ 1 := by
  by_cases h1 : (env.availableActions s).length = 1
  · simp [HierarchicalAgent.compute_stop_prob, h1]
  · cases hr : ag.decision_rule <;>
      simp only [HierarchicalAgent.compute_stop_prob, hr, if_neg h1] <;>
      first
        | exact absurd hr h
        | exact ⟨(temp_sigmoid_pos _ _).le, (temp_sigmoid_lt_one _ _).le⟩

/-- Witness for C5 at the concrete `threshold`-rule agent. -/
theorem C5_stop_prob_range_witness :
    baseAgent.decision_rule ≠ DecisionRule.noisy_memory_best_payoff ∧
    (0 ≤ (baseAgent.compute_stop_prob env2 () 0 0 0 0 0 0 0 [0] 0).1 ∧
      (baseAgent.compute_stop_prob env2 () 0 0 0 0 0 0 0 [0] 0).1 ≤ 1) :=
  ⟨by decide, C5_stop_prob_range env2 () baseAgent 0 0 0 0 0 0 0 [0] 0 (by decide)⟩

/-- Claim C5 (counterexample): under the `noisy_memory_best_payoff` rule with
shape `alpha = 1`, scale `beta = 1/2`, trial index `0` and `path_history =
[5]`, the Gamma density at time-delta `0` evaluates to `2`, so the
"probability remembered" factor is `1 - 2 = -1` and the returned stop
probability is negative, outside `[0,1]`. -/
theorem C5_counterexample :
    (agNoisy.compute_stop_prob env2 () 0 0 0 0 0 0 0 [5] 0).1 < 0 := by
  simp only [HierarchicalAgent.compute_stop_prob, agNoisy, baseAgent, baseParams, env2]
  rw [show ([(5 : ℝ)]).dedup = [5] from by simp]
  norm_num [List.enum, List.enumFrom, gamma_pdf, Real.rpow_zero, Real.Gamma_one,
    Real.exp_zero]
  exact temp_sigmoid_pos (-5) 1

/-- Claim C2 (amended): `get_action` feeds the updated `history` as
`path_history`, but it does *not* feed the agent's running statistics: the
`max_payoff` and `avg_payoff` arguments of `compute_stop_prob` are left at
their Python default `0`, so the `best_payoff` and `average_payoff` rules
score `max_expected_return` against `exp(theta) * 0` — independently of the
realized running maximum or mean of trial payoffs stored on the agent. -/
theorem C2_ignores_running_stats {σ : Type} (env : Env σ) (s : σ)
    (ag : HierarchicalAgent) (nd cd : ℝ)
    (hlen : (env.availableActions s).length ≠ 1) :
    (ag.decision_rule = DecisionRule.best_payoff →
      (ag.get_action env s nd cd).2.1 =
        temp_sigmoid (env.maxExpectedReturn s - Real.exp ag.params.theta * 0) ag.tau) ∧
    (ag.decision_rule = DecisionRule.average_payoff →
      (ag.get_action env s nd cd).2.1 =
        temp_sigmoid (env.maxExpectedReturn s - Real.exp ag.params.theta * 0) ag.tau) := by
  constructor <;> intro hr <;>
    simp [HierarchicalAgent.get_action, HierarchicalAgent.compute_stop_prob,
      HierarchicalAgent.update_history, hr, hlen]

/-- Witness for C2 (amended) at the concrete `best_payoff` agent `agC2`. -/
theorem C2_ignores_running_stats_witness :
    (env2.availableActions ()).length ≠ 1 ∧
    (agC2.get_action env2 () 0 0).2.1 =
      temp_sigmoid (env2.maxExpectedReturn () - Real.exp agC2.params.theta * 0)
        agC2.tau :=
  ⟨by decide, (C2_ignores_running_stats env2 () agC2 0 0 (by decide)).1 rfl⟩

/-- Claim C2 (counterexample): an agent under the `best_payoff` rule with
running maximum payoff `5`, `theta = 0`, `tau = 1` and max expected return
`10` gets stop probability `sigmoid(10)` — the score against the default
`0` — and not `sigmoid(10 - exp(0) * 5)`, the score against the actual
running maximum that the claim prescribes. -/
theorem C2_counterexample :
    agC2.max_payoff = 5 ∧
    (agC2.get_action env2 () 0 0).2.1 = temp_sigmoid 10 1 ∧
    temp_sigmoid 10 1 ≠ temp_sigmoid (10 - Real.exp 0 * 5) 1 := by
  refine ⟨rfl, ?_, ?_⟩
  · simp [HierarchicalAgent.get_action, HierarchicalAgent.compute_stop_prob,
      HierarchicalAgent.update_history, agC2, baseAgent, baseParams, env2]
  · have hlt : temp_sigmoid (10 - Real.exp 0 * 5) 1 < temp_sigmoid 10 1 := by
      apply temp_sigmoid_lt_of_lt one_pos
      norm_num [Real.exp_zero]
    exact (ne_of_gt hlt)

theorem get_action_payoffs {σ : Type} (env : Env σ) (s : σ) (ag : HierarchicalAgent)
    (nd cd : ℝ) : ((ag.get_action env s nd cd).2.2).payoffs = ag.payoffs := rfl

theorem lik_steps_payoffs {α σ : Type} (A : ActorAgent α σ) (env : Env σ)
    (oracle : ℕ → ℝ × ℝ) (nt : Bool) (tp : List ℕ) (tr : List ℝ) :
    ∀ (l : List ℕ) (i : ℕ) (dec : HierarchicalAgent) (actor : α) (s : σ) (k : ℕ)
      (actions : List ℕ) (rewards : List ℝ),
      (lik_steps A env oracle nt tp tr l i dec actor s k actions rewards).dec.payoffs =
        dec.payoffs := by
  intro l
  induction l with
  | nil => intro i dec actor s k actions rewards; rfl
  | cons a rest ih =>
      intro i dec actor s k actions rewards
      simp only [lik_steps]
      split_ifs <;> rw [ih] <;> rfl

theorem gen_loop_payoffs {α σ : Type} (A : ActorAgent α σ) (env : Env σ)
    (oracle : ℕ → ℝ × ℝ) :
    ∀ (fuel : ℕ) (dec : HierarchicalAgent) (actor : α) (s : σ) (k : ℕ)
      (actions : List ℕ) (rewards : List ℝ) (out : TrialLoopOut α σ),
      gen_loop A env oracle fuel dec actor s k actions rewards = some out →
      out.dec.payoffs = dec.payoffs := by
  intro fuel
  induction fuel with
  | zero =>
      intro dec actor s k actions rewards out h
      simp [gen_loop] at h
  | succ n ih =>
      intro dec actor s k actions rewards out h
      simp only [gen_loop] at h
      split_ifs at h
      · cases h; rfl
      · cases h; rfl
      · have h2 := ih _ _ _ _ _ _ _ h
        rw [h2]
        exact get_action_payoffs env s dec _ _

theorem run_trials_payoffs {α σ : Type} (A : ActorAgent α σ) (env : Env σ)
    (oracle : ℕ → ℝ × ℝ) (nt cl : Bool) (P : Participant) (fuel : ℕ) :
    ∀ (ts : List ℕ) (st st' : SimState α σ),
      run_trials A env oracle nt cl P fuel ts st = some st' →
      st'.dec.payoffs = st.dec.payoffs := by
  intro ts
  induction ts with
  | nil =>
      intro st st' h
      simp only [run_trials] at h
      cases h; rfl
  | cons t rest ih =>
      intro st st' h
      simp only [run_trials] at h
      split at h
      · cases h
      · rename_i out heq
        have h1 := ih _ _ h
        rw [h1]
        split at heq
        · cases heq
          exact lik_steps_payoffs A env oracle nt _ _ _ _ _ _ _ _ _ _
        · exact gen_loop_payoffs A env oracle _ _ _ _ _ _ _ _ heq

/-- Claim C1 (amended): in both modes, the controller never calls
`update_payoffs` anywhere in the run — the simulation loop only ever touches
the agent's `history`, `params` and `action_log_probs` — so after any
completed run the Termination Agent's `payoffs` sequence is empty (length
`0`), not of length `n` after `n` completed trials. -/
theorem C1_payoffs_empty {α σ : Type} (L : HierarchicalLearner α σ) (env : Env σ)
    (cl : Bool) (P : Participant) (oracle : ℕ → ℝ × ℝ) (fuel : ℕ) (s : σ)
    (res : TrialsData × HierarchicalAgent × α × σ)
    (h : L.simulate env cl P oracle fuel s = some res) :
    res.2.1.payoffs = [] := by
  simp only [HierarchicalLearner.simulate] at h
  split at h
  · cases h
  · rename_i st heq
    cases h
    exact run_trials_payoffs L.actor env oracle L.no_term cl P fuel _ _ _ heq

theorem sim_gen_eval :
    Lgen.simulate env1 false P0 or0 2 () =
      some (⟨[[]], [[0, 0]], [0], none⟩, { baseAgent with history := [0] }, (), ()) := by
  simp only [HierarchicalLearner.simulate, run_trials, gen_loop,
    HierarchicalAgent.get_action, HierarchicalAgent.compute_stop_prob,
    HierarchicalAgent.update_history, HierarchicalAgent.init_model_params,
    Lgen, env1, unitActor, baseAgent, baseParams, P0, or0,
    show List.range 1 = [0] from rfl]
  norm_num

/-- Claim C1 (counterexample): a concrete one-trial generative run completes
(`simulate` returns a trial record), yet the agent's `payoffs` sequence has
length `0` after the completed trial, not length `1` as the claim requires. -/
theorem C1_counterexample :
    env1.numTrials = 1 ∧
    (Lgen.simulate env1 false P0 or0 2 ()).map (fun r => r.2.1.payoffs.length) =
      some 0 ∧
    (some 0 : Option ℕ) ≠ some 1 := by
  refine ⟨rfl, ?_, by simp⟩
  rw [sim_gen_eval]
  rfl

/-- Witness for C1 (amended) on the concrete one-trial generative run. -/
theorem C1_payoffs_empty_witness :
    ({ baseAgent with history := [0] } : HierarchicalAgent).payoffs = [] :=
  C1_payoffs_empty Lgen env1 false P0 or0 2 ()
    (⟨[[]], [[0, 0]], [0], none⟩, { baseAgent with history := [0] }, (), ())
    sim_gen_eval

/-- Claim C4 (amended): in generative mode, when the sampled termination
choice is stop, the controller appends the terminal reward exactly once but
the terminal action twice — once as the literal `0` and once more as the
sampled `continue_planning` value (also `0`) — before ending the trial, so
the per-trial action sequence ends with two trailing terminal actions. -/
theorem C4_stop_appends_twice {α σ : Type} (A : ActorAgent α σ) (env : Env σ)
    (oracle : ℕ → ℝ × ℝ) (fuel : ℕ) (dec : HierarchicalAgent) (actor : α) (s : σ)
    (k : ℕ) (actions : List ℕ) (rewards : List ℝ)
    (h : (dec.get_action env s (oracle k).1 (oracle k).2).1 = 0) :
    gen_loop A env oracle (fuel + 1) dec actor s k actions rewards =
      some ⟨(dec.get_action env s (oracle k).1 (oracle k).2).2.2,
        (A.act_and_learn_end actor (env.stepTerm s).1).1,
        (A.act_and_learn_end actor (env.stepTerm s).1).2,
        k + 1, actions ++ [0, 0], rewards ++ [(env.stepTerm s).2]⟩ := by
  simp only [gen_loop]
  rw [if_pos h, h]

/-- Witness for C4 (amended) on a concrete stop step. -/
theorem C4_stop_appends_twice_witness :
    (baseAgent.get_action env1 () (or0 0).1 (or0 0).2).1 = 0 ∧
    gen_loop unitActor env1 or0 1 baseAgent () () 0 [] [] =
      some ⟨(baseAgent.get_action env1 () (or0 0).1 (or0 0).2).2.2,
        (unitActor.act_and_learn_end () (env1.stepTerm ()).1).1,
        (unitActor.act_and_learn_end () (env1.stepTerm ()).1).2,
        1, [0, 0], [0]⟩ := by
  have h : (baseAgent.get_action env1 () (or0 0).1 (or0 0).2).1 = 0 := by
    simp [HierarchicalAgent.get_action, HierarchicalAgent.compute_stop_prob,
      HierarchicalAgent.update_history, env1, or0, baseAgent, baseParams]
  refine ⟨h, ?_⟩
  have h2 := C4_stop_appends_twice unitActor env1 or0 0 baseAgent () () 0 [] [] h
  simpa [env1, unitActor] using h2

/-- Claim C4 (counterexample): in the concrete one-trial generative run that
stops at the first decision, the per-trial action sequence stored under key
`a` is `[0, 0]` — two trailing terminal actions, not the single one the
claim describes. -/
theorem C4_counterexample :
    (Lgen.simulate env1 false P0 or0 2 ()).map (fun r => r.1.a) = some [[0, 0]] ∧
    (some [[0, 0]] : Option (List (List ℕ))) ≠ some [[0]] := by
  refine ⟨?_, by simp⟩
  rw [sim_gen_eval]
  rfl

theorem sim_empty_eval :
    Lgen.simulate env0 false P0 or0 1 () =
      some (⟨[], [], [], none⟩, baseAgent, (), ()) := rfl

/-- Claim C6: at end of a run, the trial record's `loss` equals the negated
sum of the Termination Agent's and the Execution Agent's accumulated
log-probabilities exactly when both `action_log_probs` sequences are
non-empty; otherwise `loss` is `none`. -/
theorem C6_loss_characterization {α σ : Type} (L : HierarchicalLearner α σ)
    (env : Env σ) (cl : Bool) (P : Participant) (oracle : ℕ → ℝ × ℝ) (fuel : ℕ)
    (s : σ) (res : TrialsData × HierarchicalAgent × α × σ)
    (h : L.simulate env cl P oracle fuel s = some res) :
    ((res.1.loss =
        some (-(res.2.1.action_log_probs.sum +
          (L.actor.action_log_probs res.2.2.1).sum)) ↔
      res.2.1.action_log_probs ≠ [] ∧ L.actor.action_log_probs res.2.2.1 ≠ []) ∧
    (res.2.1.action_log_probs = [] ∨ L.actor.action_log_probs res.2.2.1 = [] →
      res.1.loss = none)) := by
  simp only [HierarchicalLearner.simulate] at h
  split at h
  · cases h
  · rename_i st heq
    cases h
    rcases hd : st.dec.action_log_probs with _ | ⟨x, xs⟩ <;>
      rcases ha : L.actor.action_log_probs st.actor with _ | ⟨y, ys⟩ <;>
      simp [hd, ha]

/-- Witness for C6 on the concrete empty-trial-set generative run
(`compute_likelihood = false`, `num_trials = 0`): `loss` is `none`. -/
theorem C6_loss_characterization_witness :
    (⟨[], [], [], none⟩ : TrialsData).loss = none :=
  (C6_loss_characterization Lgen env0 false P0 or0 1 ()
    (⟨[], [], [], none⟩, baseAgent, (), ()) sim_empty_eval).2 (Or.inl rfl)
